import Mathlib

/-!
Verification of the cloudcraft-go client library request/response pipeline.

This file gives a shallow embedding, in Lean, of the pipeline code of the
cloudcraft-go repository (package `cloudcraft`): the query-merge helper
`addOptions`, the request builder `Client.NewRequest`, the client
constructors (`NewFromToken`, `SetRequestHeaders`), the response processor
`Client.Do` with its 202 retry loop and deferred body cleanup, the error
decoder `CheckResponse` together with `ErrorResponse.Error`, and the
argument-validation prologues of the resource services
(`BlueprintsServiceOp`, `AwsAccountsServiceOp`).

External library behaviour that the Go code delegates (URL parsing and
resolution from `net/url`, JSON encoding/decoding from `encoding/json`,
query encoding of option structs from `go-querystring`, the network
exchange performed by `http.Client.Do`) is abstracted into explicit
function parameters of the embedded definitions, so every theorem is
quantified over the behaviour of those collaborators.  Machine-level Go
values are embedded as follows: a Go pointer or interface value that may
be nil becomes an `Option`; a `(value, error)` pair whose contract is
"exactly one side is set" becomes an `Except`; a nil-pointer dereference
(a Go runtime panic) becomes an explicit `nilPanic` / `nilDeref`
constructor; the unbounded `for` loop in `Do` is given fuel, with a
`fuelOut` constructor standing for a still-running loop.
-/

namespace Cloudcraft

/-! ## Constants (Go: const block of the package) -/

def libraryVersion : String := "1.0.0"

def defaultBaseURL : String := "https://api.cloudcraft.co/"

def userAgent : String := "cloudcraft-go/" ++ libraryVersion

def mediaType : String := "application/json"

/-! ## ErrorResponse and CheckResponse -/

/-- Go struct `ErrorResponse`: the decoded form of a non-2xx API response.
The embedded `*http.Response` is represented by the fields of it that
`ErrorResponse.Error` actually reads: request method, request URL and
status code.  `message` and `code` carry the Go zero values `""` and `0`
until populated. -/
structure ErrorResponse where
  method : String
  url : String
  statusCode : Nat
  message : String
  code : Int
deriving DecidableEq

/-- Go method `ErrorResponse.Error`: renders
`fmt.Sprintf("%v %v: %d %v", method, url, statusCode, message)`. -/
def ErrorResponse.errorString (r : ErrorResponse) : String :=
  r.method ++ " " ++ r.url ++ ": " ++ toString r.statusCode ++ " " ++ r.message

/-- The observable content of a Go `*http.Response` as used by this
pipeline: status code, the request method/URL it answers (read by
`ErrorResponse.Error`), the content length (`-1` when unknown), the bytes
the body stream yields, whether reading the body fails, and whether
`Body.Close()` returns an error. -/
structure HttpResp where
  statusCode : Nat
  method : String
  url : String
  contentLength : Int
  bodyData : String
  bodyReadErr : Bool
  closeErr : Bool
deriving DecidableEq

/-- The observable effect of `json.Unmarshal(data, errorResponse)` on an
`ErrorResponse` whose `Message`/`Code` fields start at their zero values:
the values the two fields hold after the call, and whether the call
returned an error.  `json.Unmarshal` populates every field it can decode
even when it returns an error (it records the first decoding error and
keeps going), so on `failed = true` the fields may still carry decoded
values — e.g. a body whose code field is a valid integer but whose error
field is not a string leaves `code` set and `failed = true`. -/
structure UnmarshalOutcome where
  message : String
  code : Int
  failed : Bool
deriving DecidableEq

/-- Go function `CheckResponse`.  Returns `none` (no error) for a status
code in the 200 range; otherwise builds an `ErrorResponse`, reads the
whole body, and, when the read succeeded and the body is non-empty,
unmarshals it as JSON into the message/code fields; when the unmarshal
returned an error, the message field is then overwritten with the raw
body text (the code field keeps whatever the unmarshal decoded into it).

`jsonParse data` abstracts `json.Unmarshal` of the bytes `data` into the
zero-valued struct, as an `UnmarshalOutcome`. -/
def CheckResponse (jsonParse : String → UnmarshalOutcome) (r : HttpResp) :
    Option ErrorResponse :=
  if 200 ≤ r.statusCode ∧ r.statusCode ≤ 299 then
    none
  else
    let base : ErrorResponse :=
      { method := r.method, url := r.url, statusCode := r.statusCode,
        message := "", code := 0 }
    some (if r.bodyReadErr = false ∧ 0 < r.bodyData.length then
            let u := jsonParse r.bodyData
            let afterUnmarshal : ErrorResponse :=
              { base with message := u.message, code := u.code }
            if u.failed then { afterUnmarshal with message := r.bodyData }
            else afterUnmarshal
          else base)

/-! ## addOptions (query merge) -/

/-- Go type `url.Values`: a map from query keys to lists of values.
Embedded as an association list; the Go map has unique keys, which is
assumed where needed (`List.Nodup` on the keys). -/
abbrev Values := List (String × List String)

/-- Lookup of a key in a `url.Values` map (Go map indexing; a missing key
yields the zero value, the empty list). -/
def Values.get : Values → String → List String
  | [], _ => []
  | p :: rest, k => if p.1 = k then p.2 else Values.get rest k

/-- The keys of a `url.Values` map. -/
def Values.keys (vs : Values) : List String := vs.map Prod.fst

/-- Go map assignment `vs[k] = v`: the binding for `k` is replaced (or
created), all other bindings are untouched. -/
def Values.setKey (vs : Values) (k : String) (v : List String) : Values :=
  (k, v) :: vs.filter (fun p => p.1 ≠ k)

/-- The loop `for k, v := range newValues { origValues[k] = v }` in
`addOptions`. -/
def mergeValues (orig new : Values) : Values :=
  new.foldl (fun acc p => acc.setKey p.1 p.2) orig

/-- Go function `addOptions` taking a URL string and an untyped options
value (a Go empty-interface parameter).  Returns the
pair (resulting URL string, whether an error was returned); on error the
Go code returns the original string `s` alongside the error.

The collaborators are abstracted: `parse` is `url.Parse` splitting a URL
string into its non-query part and its parsed query (`URL.Query()`), with
`none` for a parse error; `queryValues` is `query.Values` from
go-querystring, with `none` for an encoding error; `render` reassembles
the URL string from the non-query part and the re-encoded merged query
(`URL.String()` after `RawQuery = values.Encode()`).  A nil options
pointer is `opt = none`: the Go code then returns `s` unchanged before
doing anything else. -/
def addOptions {Opt : Type} (parse : String → Option (String × Values))
    (queryValues : Opt → Option Values) (render : String → Values → String)
    (s : String) (opt : Option Opt) : String × Bool :=
  match opt with
  | none => (s, false)
  | some o =>
    match parse s with
    | none => (s, true)
    | some (origURL, origValues) =>
      match queryValues o with
      | none => (s, true)
      | some newValues =>
        (render origURL (mergeValues origValues newValues), false)

/-! ## Headers, NewRequest and client construction -/

/-- Go `http.Header` as used here: an ordered multi-list of (key, value)
pairs; keys used by this code are already in canonical form. -/
abbrev Headers := List (String × String)

/-- Go `req.Header.Set(k, v)`: replaces all values for `k` with the single
value `v`. -/
def headerSet (hs : Headers) (k v : String) : Headers :=
  (k, v) :: hs.filter (fun p => p.1 ≠ k)

/-- Go `req.Header.Add(k, v)`: appends a value for `k`, keeping existing
ones. -/
def headerAdd (hs : Headers) (k v : String) : Headers :=
  hs ++ [(k, v)]

/-- All values carried for key `k`. -/
def headerValues (hs : Headers) (k : String) : List String :=
  (hs.filter (fun p => p.1 = k)).map Prod.snd

/-- A built Go `*http.Request` as produced by `Client.NewRequest`:
method, resolved URL, headers, and body (`none` when `http.NewRequest`
was called with a nil body, `some bytes` otherwise; a non-GET-class
request with a nil body value gets `some ""`, the empty buffer). -/
structure HttpRequest where
  method : String
  url : String
  headers : Headers
  body : Option String
deriving DecidableEq

/-- The configuration fields of the Go `Client` struct that
`Client.NewRequest` reads: `BaseURL`, `UserAgent` and the static extra
header map set by `SetRequestHeaders` (a Go map, embedded as an
association list). -/
structure ClientModel where
  baseURL : String
  userAgent : String
  headers : List (String × String)
deriving DecidableEq

/-- Go method `Client.NewRequest(ctx, method, urlStr, body)`.

`resolve` abstracts `BaseURL.Parse(urlStr)` (reference resolution of the
relative URL against the base URL, `none` on a parse error); `encode`
abstracts `json.NewEncoder(buf).Encode(body)` (`none` on an encoding
error).  A nil body interface value is `body = none`.

For GET/HEAD/OPTIONS the request is created with a nil body; for every
other method a buffer is used (filled with the JSON encoding when the
body value is non-nil) and `Content-Type` is set.  Then each configured
static client header is added, and finally `Accept` and `User-Agent` are
set. -/
def NewRequest {Body : Type} (resolve : String → String → Option String)
    (encode : Body → Option String) (c : ClientModel)
    (method urlStr : String) (body : Option Body) : Option HttpRequest :=
  match resolve c.baseURL urlStr with
  | none => none
  | some u =>
    let req0 : Option HttpRequest :=
      if method = "GET" ∨ method = "HEAD" ∨ method = "OPTIONS" then
        some { method := method, url := u, headers := [], body := none }
      else
        match body with
        | none =>
          some { method := method, url := u,
                 headers := headerSet [] "Content-Type" mediaType,
                 body := some "" }
        | some b =>
          match encode b with
          | none => none
          | some enc =>
            some { method := method, url := u,
                   headers := headerSet [] "Content-Type" mediaType,
                   body := some enc }
    match req0 with
    | none => none
    | some req =>
      let hs := c.headers.foldl (fun hs p => headerAdd hs p.1 p.2) req.headers
      some { req with
             headers := headerSet (headerSet hs "Accept" mediaType)
                          "User-Agent" c.userAgent }

/-- Go function `NewFromToken(token)`: builds a client via
`New(nil, SetRequestHeaders(...))`, yielding the default base URL and
user agent plus a static header map holding one entry whose value is the
Go expression `"Bearer" + token` (note: the source concatenates with no
space). -/
def NewFromToken (token : String) : ClientModel :=
  { baseURL := defaultBaseURL, userAgent := userAgent,
    headers := [("Authorization", "Bearer" ++ token)] }

/-! ## Transport and Client.Do -/

/-- A transport-level failure of the underlying HTTP client (DNS, TCP,
TLS, timeout): the case where Go `http.Client.Do` returns
`(nil, err)`. -/
inductive TransportErr
  | dnsFailure
  | tcpFailure
  | tlsFailure
  | timeout
deriving DecidableEq

/-- Outcome of the retry loop heading `Client.Do`:
`exited resp` means the condition `resp.StatusCode == 202` became false
with `resp` non-nil; `nilPanic` means the condition was evaluated while
`resp` was nil (the attempt had returned an error), a nil-pointer
dereference; `fuelOut` means the loop was still running when the fuel ran
out (the Go loop is unbounded). -/
inductive LoopOutcome
  | exited (resp : HttpResp)
  | nilPanic
  | fuelOut
deriving DecidableEq

/-- The loop in `Client.Do`:
`resp, err := DoRequestWithClient(ctx, c.client, req);`
`for resp.StatusCode == 202 { resp, err = DoRequestWithClient(ctx, c.client, req) }`.

`t req i` is the outcome of attempt number `i` of sending the same
request `req` through `DoRequestWithClient` (Go `http.Client.Do` under
the request context); per the net/http contract, an `.error` outcome
means the returned response is nil.  Every iteration, including the
first, evaluates `resp.StatusCode`: when the attempt failed, `resp` is
nil and the dereference panics. -/
def retryLoop (t : HttpRequest → Nat → Except TransportErr HttpResp)
    (req : HttpRequest) : Nat → Nat → LoopOutcome
  | 0, _ => .fuelOut
  | fuel + 1, i =>
    match t req i with
    | .error _ => .nilPanic
    | .ok resp =>
      if resp.statusCode = 202 then retryLoop t req fuel (i + 1)
      else .exited resp

/-- The error values `Client.Do` can return: a transport error (the
`if err != nil` return), an API error from `CheckResponse`, an `io.Copy`
failure into an `io.Writer` destination, a JSON decode failure, or a
body-close failure (only ever assigned to the dead local, see
`cleanupLocalErr`). -/
inductive DoError
  | transport (e : TransportErr)
  | api (e : ErrorResponse)
  | copyFailed
  | decodeFailed
  | closeFailed
deriving DecidableEq

/-- The destination value `v` handed to `Client.Do`: nil, an `io.Writer`
byte sink, or a JSON decode target.  For a decode target, `decodeOk body`
abstracts whether `json.NewDecoder(resp.Body).Decode(v)` succeeds on the
given body bytes. -/
inductive Dest
  | nil
  | writer
  | typed (decodeOk : String → Bool)

/-- The observable result of a terminated `Client.Do` call: the
`*Response` wrapper returned (`newResponse(resp)`, or nil on a
copy/decode failure), the returned error, the bytes copied into the
writer destination if any, and the body bytes handed to the JSON decoder
if a decode was attempted. -/
structure DoResult where
  response : Option HttpResp
  error : Option DoError
  written : Option String
  decoded : Option String

/-- The part of `Client.Do` that follows the retry loop, applied to the
response the loop exited with (at this point the local `err` is nil:
a failed attempt would have panicked inside the loop condition, so the
`if err != nil` return is unreachable).  It classifies the status via
`CheckResponse` and then performs the destination handling: `io.Copy`
into a writer, or JSON decode into a non-nil value, or nothing. -/
def processResponse (jsonParse : String → UnmarshalOutcome)
    (resp : HttpResp) (v : Dest) : DoResult :=
  match CheckResponse jsonParse resp with
  | some e =>
    { response := some resp, error := some (.api e),
      written := none, decoded := none }
  | none =>
    match v with
    | .nil =>
      { response := some resp, error := none,
        written := none, decoded := none }
    | .writer =>
      if resp.bodyReadErr then
        { response := none, error := some .copyFailed,
          written := none, decoded := none }
      else
        { response := some resp, error := none,
          written := some resp.bodyData, decoded := none }
    | .typed decodeOk =>
      if resp.bodyReadErr || !decodeOk resp.bodyData then
        { response := none, error := some .decodeFailed,
          written := none, decoded := some resp.bodyData }
      else
        { response := some resp, error := none,
          written := none, decoded := some resp.bodyData }

/-- Final outcome of a `Client.Do` call: a returned result, a nil-pointer
panic, or a loop that is still running after `fuel` attempts. -/
inductive DoFinal
  | ret (r : DoResult)
  | nilPanic
  | fuelOut

/-- Go method `Client.Do(ctx, req, v)`: run the retry loop, then process
the response it exited with.

The deferred cleanup (body drain and close) registered between the loop
and the processing is modelled by `drainsBody` and `cleanupLocalErr`
below: it has no effect on the values `Do` returns, because `Do` has
unnamed result parameters, so the deferred assignment
`if rerr := resp.Body.Close(); err == nil ... err = rerr` mutates a local
variable after the return values have already been bound. -/
def Do (jsonParse : String → UnmarshalOutcome)
    (t : HttpRequest → Nat → Except TransportErr HttpResp)
    (req : HttpRequest) (v : Dest) (fuel : Nat) : DoFinal :=
  match retryLoop t req fuel 0 with
  | .nilPanic => .nilPanic
  | .fuelOut => .fuelOut
  | .exited resp => .ret (processResponse jsonParse resp v)

/-- Go constant `maxBodySlurpSize = 2 << 10` in the deferred cleanup. -/
def maxBodySlurpSize : Int := 2048

/-- The condition under which the deferred cleanup in `Client.Do` drains
(reads and discards) up to `maxBodySlurpSize` bytes of the body before
closing it: content length unknown (`-1`) or within the cap.  Errors of
this drain are discarded outright (`io.CopyN` result ignored). -/
def drainsBody (resp : HttpResp) : Bool :=
  resp.contentLength = -1 || resp.contentLength ≤ maxBodySlurpSize

/-- The final value of the LOCAL variable `err` of `Client.Do` after the
deferred cleanup runs: a `Body.Close()` failure is assigned to it only
when no other error is pending.  `Do` has unnamed result parameters, so
this value is computed after the return values are bound and is
discarded: it never reaches the caller. -/
def cleanupLocalErr (resp : HttpResp) (pending : Option DoError) :
    Option DoError :=
  match pending with
  | some e => some e
  | none => if resp.closeErr then some .closeFailed else none

/-! ## Resource service argument validation -/

/-- Go constant `blueprintBasePath`. -/
def blueprintBasePath : String := "blueprint"

/-- Go constant `awsAccountBasePath`. -/
def awsAccountBasePath : String := "aws/account"

/-- Go struct `BlueprintExportRequest` (the fields read before any
request is built). -/
structure BlueprintExportRequest where
  Format : String
deriving DecidableEq

/-- Go struct `AwsAccountSnapshotRequest` (the fields read before any
request is built). -/
structure AwsAccountSnapshotRequest where
  Format : String
  Region : String
deriving DecidableEq

/-- Outcome of the prologue of a resource-service operation, up to (and
excluding) the `NewRequest`/`Do` calls: an immediate
`ArgumentError` (`NewArgError(field, reason)`) returned before any
request is built, a nil-pointer dereference of a nil request body, or
proceeding to build a request for the computed path. -/
inductive ServiceOutcome
  | argError (field : String) (reason : String)
  | nilDeref
  | proceed (path : String)
deriving DecidableEq

/-- Whether the outcome is an immediate `ArgumentError`. -/
def ServiceOutcome.isArgError : ServiceOutcome → Bool
  | .argError _ _ => true
  | _ => false

/-- Go method `BlueprintsServiceOp.Get` prologue. -/
def BlueprintsGet (blueprintId : String) : ServiceOutcome :=
  if blueprintId = "" then .argError "blueprintId" "cannot be empty"
  else .proceed (blueprintBasePath ++ "/" ++ blueprintId)

/-- Go method `BlueprintsServiceOp.Create` prologue (the body type is
irrelevant to the validation, so it is a type parameter). -/
def BlueprintsCreate {Body : Type} (createRequest : Option Body) :
    ServiceOutcome :=
  match createRequest with
  | none => .argError "createRequest" "cannot be nil"
  | some _ => .proceed blueprintBasePath

/-- Go method `BlueprintsServiceOp.Update` prologue. -/
def BlueprintsUpdate {Body : Type} (blueprintId : String)
    (updateRequest : Option Body) : ServiceOutcome :=
  if blueprintId = "" then .argError "blueprintId" "cannot be empty"
  else
    match updateRequest with
    | none => .argError "updateRequest" "cannot be nil"
    | some _ => .proceed blueprintBasePath

/-- Go method `BlueprintsServiceOp.Delete` prologue. -/
def BlueprintsDelete (blueprintId : String) : ServiceOutcome :=
  if blueprintId = "" then .argError "blueprintId" "cannot be empty"
  else .proceed (blueprintBasePath ++ "/" ++ blueprintId)

/-- Go method `BlueprintsServiceOp.Export` prologue: after the identifier
check, `exportRequest.Format` is read with no nil check, so a nil export
request is dereferenced (the computed path then goes through
`addOptions` with `exportRequest.ExportParameters`). -/
def BlueprintsExport (blueprintId : String)
    (exportRequest : Option BlueprintExportRequest) : ServiceOutcome :=
  if blueprintId = "" then .argError "blueprintId" "cannot be empty"
  else
    match exportRequest with
    | none => .nilDeref
    | some r =>
      .proceed (blueprintBasePath ++ "/" ++ blueprintId ++ "/" ++ r.Format)

/-- Go method `AwsAccountsServiceOp.Get` prologue. -/
def AwsAccountsGet (awsAccountID : String) : ServiceOutcome :=
  if awsAccountID = "" then .argError "awsAccountID" "cannot be empty"
  else .proceed (awsAccountBasePath ++ "/" ++ awsAccountID)

/-- Go method `AwsAccountsServiceOp.Create` prologue. -/
def AwsAccountsCreate {Body : Type} (createRequest : Option Body) :
    ServiceOutcome :=
  match createRequest with
  | none => .argError "createRequest" "cannot be nil"
  | some _ => .proceed awsAccountBasePath

/-- Go method `AwsAccountsServiceOp.Update` prologue. -/
def AwsAccountsUpdate {Body : Type} (awsAccountID : String)
    (updateRequest : Option Body) : ServiceOutcome :=
  if awsAccountID = "" then .argError "awsAccountID" "cannot be empty"
  else
    match updateRequest with
    | none => .argError "updateRequest" "cannot be nil"
    | some _ => .proceed (awsAccountBasePath ++ "/" ++ awsAccountID)

/-- Go method `AwsAccountsServiceOp.Delete` prologue. -/
def AwsAccountsDelete (awsAccountID : String) : ServiceOutcome :=
  if awsAccountID = "" then .argError "awsAccountID" "cannot be empty"
  else .proceed (awsAccountBasePath ++ "/" ++ awsAccountID)

/-- Go method `AwsAccountsServiceOp.Snapshot` prologue: after the
identifier check, `snapshotRequest.Region` and `snapshotRequest.Format`
are read with no nil check, so a nil snapshot request is dereferenced. -/
def AwsAccountsSnapshot (awsAccountID : String)
    (snapshotRequest : Option AwsAccountSnapshotRequest) : ServiceOutcome :=
  if awsAccountID = "" then .argError "awsAccountID" "cannot be empty"
  else
    match snapshotRequest with
    | none => .nilDeref
    | some r =>
      .proceed (awsAccountBasePath ++ "/" ++ awsAccountID ++ "/" ++
        r.Region ++ "/" ++ r.Format)

/-! ## Concrete instances used by the witness theorems -/

/-- A body byte string: the JSON error document of the spec example
(literal braces written via escapes). -/
def body404 : String := "\x7b\"error\":\"not found\",\"code\":404\x7d"

/-- A concrete `json.Unmarshal` behaviour: `body404` unmarshals into
message "not found" and code 404; anything else fails to unmarshal with
nothing decoded. -/
def parse404 : String → UnmarshalOutcome :=
  fun s =>
    if s = body404 then { message := "not found", code := 404, failed := false }
    else { message := "", code := 0, failed := true }

/-- A body whose code field is a valid integer but whose error field is
not a string (literal braces written via escapes). -/
def body500 : String := "\x7b\"error\":123,\"code\":500\x7d"

/-- The `json.Unmarshal` behaviour on `body500`: decoding the error field
into the string Message fails (leaving it empty), the code field decodes
to 500, and the recorded decoding error is returned; anything else fails
with nothing decoded. -/
def parse500 : String → UnmarshalOutcome :=
  fun s =>
    if s = body500 then { message := "", code := 500, failed := true }
    else { message := "", code := 0, failed := true }

/-- Concrete 500 response carrying `body500`. -/
def resp500 : HttpResp :=
  { statusCode := 500, method := "GET",
    url := "https://api.cloudcraft.co/blueprint/xyz",
    contentLength := -1, bodyData := body500,
    bodyReadErr := false, closeErr := false }

/-- The `ErrorResponse` that `CheckResponse parse500 resp500` yields:
message is the raw body text, yet code is 500, not the zero value. -/
def e500 : ErrorResponse :=
  { method := "GET", url := "https://api.cloudcraft.co/blueprint/xyz",
    statusCode := 500, message := body500, code := 500 }

/-- Concrete 404 response corresponding to the spec example. -/
def resp404 : HttpResp :=
  { statusCode := 404, method := "GET",
    url := "https://api.cloudcraft.co/blueprint/xyz",
    contentLength := -1, bodyData := body404,
    bodyReadErr := false, closeErr := false }

/-- The `ErrorResponse` that `CheckResponse parse404 resp404` yields. -/
def e404 : ErrorResponse :=
  { method := "GET", url := "https://api.cloudcraft.co/blueprint/xyz",
    statusCode := 404, message := "not found", code := 404 }

/-- Concrete 202 ("processing") response. -/
def resp202 : HttpResp :=
  { statusCode := 202, method := "GET", url := "https://api.cloudcraft.co/u",
    contentLength := 0, bodyData := "",
    bodyReadErr := false, closeErr := false }

/-- Concrete 200 response. -/
def resp200 : HttpResp :=
  { statusCode := 200, method := "GET", url := "https://api.cloudcraft.co/u",
    contentLength := 2, bodyData := "ok",
    bodyReadErr := false, closeErr := false }

/-- The 200 response whose `Body.Close()` fails. -/
def resp200close : HttpResp :=
  { resp200 with closeErr := true }

/-- Concrete request fed to the `Do` model. -/
def reqW : HttpRequest :=
  { method := "GET", url := "https://api.cloudcraft.co/u",
    headers := [], body := none }

/-- Concrete transport history: attempts 0 and 1 answer 202, attempt 2
answers 200. -/
def rW : Nat → HttpResp := fun i => if i < 2 then resp202 else resp200

/-- Transport that always yields a response, following `rW`. -/
def tW : HttpRequest → Nat → Except TransportErr HttpResp :=
  fun _ i => .ok (rW i)

/-- Transport whose every attempt fails at the transport level. -/
def tFail : HttpRequest → Nat → Except TransportErr HttpResp :=
  fun _ _ => .error .dnsFailure

/-- Transport that always answers the 200 response. -/
def tOk200 : HttpRequest → Nat → Except TransportErr HttpResp :=
  fun _ _ => .ok resp200

/-- Transport that always answers the 200 response with failing close. -/
def tOk200close : HttpRequest → Nat → Except TransportErr HttpResp :=
  fun _ _ => .ok resp200close

/-- A `json.Unmarshal` behaviour that always fails with nothing decoded
(irrelevant to 2xx paths). -/
def jsonPW : String → UnmarshalOutcome :=
  fun _ => { message := "", code := 0, failed := true }

/-- Concrete URL-reference resolution: plain concatenation, never
failing (the real `net/url` resolution is abstract in the theorems). -/
def resolve0 : String → String → Option String := fun b rel => some (b ++ rel)

/-- Concrete JSON body encoder for `Unit` bodies: the empty JSON
document (braces escaped). -/
def encode0 : Unit → Option String := fun _ => some "\x7b\x7d"

/-- A client with no static headers, as produced by `NewClient`. -/
def c0 : ClientModel :=
  { baseURL := defaultBaseURL, userAgent := userAgent, headers := [] }

/-- The request `NewRequest` builds for client `c0`, method GET, path
"blueprint", with a (ignored) non-nil body value. -/
def reqGETc : HttpRequest :=
  (NewRequest resolve0 encode0 c0 "GET" "blueprint" (some ())).getD reqW

/-- The request `NewRequest` builds for client `c0`, method POST, path
"blueprint", with a non-nil body value. -/
def reqPOSTc : HttpRequest :=
  (NewRequest resolve0 encode0 c0 "POST" "blueprint" (some ())).getD reqW

/-- The request `NewRequest` builds for the client `NewFromToken
"abc123"`, method GET, path "user/me", nil body. -/
def tokenReq : Option HttpRequest :=
  NewRequest resolve0 encode0 (NewFromToken "abc123") "GET" "user/me"
    (none : Option Unit)

/-- Concrete URL for the `addOptions` witness. -/
def urlW : String := "https://api.cloudcraft.co/blueprint/xyz/png?grid=false&width=100"

/-- Concrete `url.Parse` behaviour for the `addOptions` witness. -/
def parseW : String → Option (String × Values) :=
  fun s =>
    if s = urlW then
      some ("https://api.cloudcraft.co/blueprint/xyz/png",
            [("grid", ["false"]), ("width", ["100"])])
    else none

/-- Concrete `query.Values` behaviour for the `addOptions` witness. -/
def qvW : Unit → Option Values :=
  fun _ => some [("width", ["200"]), ("height", ["300"])]

/-- Concrete URL re-rendering for the `addOptions` witness: the
non-query part followed by the number of query keys (sufficient for a
concrete evaluation; the real encoder is abstract in the theorems). -/
def renderW : String → Values → String :=
  fun base vs => base ++ "?" ++ toString vs.length

/-! ## Helper lemmas -/

theorem string_length_pos_iff (s : String) : 0 < s.length ↔ s ≠ "" := by
  cases s with
  | mk data =>
    cases data with
    | nil => simp [String.length]
    | cons h t =>
      simp only [String.length]
      constructor
      · intro _ hc
        have hd : (String.mk (h :: t)).data = ("" : String).data := by rw [hc]
        simp at hd
      · intro _; simp

theorem Values.get_filter_ne (vs : Values) (k q : String) (h : k ≠ q) :
    Values.get (vs.filter (fun p => p.1 ≠ q)) k = vs.get k := by
  induction vs with
  | nil => rfl
  | cons p rest ih =>
    by_cases hp : p.1 = q
    · rw [show Values.get (p :: rest) k = Values.get rest k by
        simp [Values.get, show p.1 ≠ k from fun hc => h (hc ▸ hp)]]
      rw [show (p :: rest).filter (fun x => decide (x.1 ≠ q)) = rest.filter (fun x => decide (x.1 ≠ q)) by
        simp [List.filter_cons, hp]]
      exact ih
    · rw [show (p :: rest).filter (fun x => decide (x.1 ≠ q)) = p :: rest.filter (fun x => decide (x.1 ≠ q)) by
        simp [List.filter_cons, hp]]
      by_cases hk : p.1 = k
      · simp [Values.get, hk]
      · simp only [Values.get, if_neg hk]
        exact ih

theorem Values.get_setKey_self (vs : Values) (k : String) (v : List String) :
    (vs.setKey k v).get k = v := by
  simp [Values.setKey, Values.get]

theorem Values.get_setKey_ne (vs : Values) (k q : String) (v : List String)
    (h : k ≠ q) : (vs.setKey q v).get k = vs.get k := by
  simp only [Values.setKey, Values.get, if_neg (Ne.symm h)]
  exact Values.get_filter_ne vs k q h

theorem mergeValues_cons (orig : Values) (p : String × List String)
    (rest : Values) :
    mergeValues orig (p :: rest) = mergeValues (orig.setKey p.1 p.2) rest :=
  rfl

theorem mergeValues_get_not_mem (new : Values) :
    ∀ (orig : Values) (k : String), k ∉ new.keys →
      (mergeValues orig new).get k = orig.get k := by
  induction new with
  | nil => intro orig k _; rfl
  | cons p rest ih =>
    intro orig k hk
    have hk1 : k ≠ p.1 := fun h => hk (by simp [Values.keys, h])
    have hk2 : k ∉ Values.keys rest := fun h => hk (by
      simp only [Values.keys, List.map_cons, List.mem_cons]
      exact Or.inr h)
    rw [mergeValues_cons, ih _ k hk2, Values.get_setKey_ne orig k p.1 p.2 hk1]

theorem mergeValues_get_mem (new : Values) :
    ∀ (orig : Values) (k : String), new.keys.Nodup → k ∈ new.keys →
      (mergeValues orig new).get k = new.get k := by
  induction new with
  | nil => intro orig k _ hk; cases hk
  | cons p rest ih =>
    intro orig k hnd hk
    have hnd' := (List.nodup_cons.mp hnd)
    rw [mergeValues_cons]
    by_cases hkp : k = p.1
    · have hnr : k ∉ Values.keys rest := by
        rw [hkp]; exact hnd'.1
      rw [mergeValues_get_not_mem rest _ k hnr, hkp,
        Values.get_setKey_self]
      simp [Values.get]
    · have hpk : p.1 ≠ k := fun h => hkp (Eq.symm h)
      have hkr : k ∈ Values.keys rest := by
        rcases (by simpa [Values.keys] using hk : k = p.1 ∨ k ∈ Values.keys rest) with h | h
        · exact absurd h hkp
        · exact h
      rw [ih _ k hnd'.2 hkr,
        show Values.get (p :: rest) k
          = if p.1 = k then p.2 else Values.get rest k from rfl,
        if_neg hpk]

theorem checkResponse_statusCode (p : String → UnmarshalOutcome)
    (r : HttpResp) (e : ErrorResponse) (h : CheckResponse p r = some e) :
    e.method = r.method ∧ e.url = r.url ∧ e.statusCode = r.statusCode := by
  simp only [CheckResponse] at h
  split at h
  · cases h
  · split at h
    · split at h
      all_goals cases h; exact ⟨rfl, rfl, rfl⟩
    · cases h; exact ⟨rfl, rfl, rfl⟩

/-! ## Claim theorems -/

/-- C7: addOptions applied to any URL string with a nil options pointer
returns the string unchanged with no error; consequently resolving a base
URL and a relative path followed by a query-merge with nil options is the
same as resolving alone. -/
theorem addOptions_nil_options_identity {Opt : Type}
    (parse : String → Option (String × Values))
    (queryValues : Opt → Option Values)
    (render : String → Values → String) :
    (∀ s : String,
       addOptions parse queryValues render s (none : Option Opt) = (s, false))
    ∧ (∀ (resolve : String → String → String) (B P : String),
       addOptions parse queryValues render (resolve B P) (none : Option Opt)
         = (resolve B P, false)) :=
  ⟨fun _ => rfl, fun _ _ _ => rfl⟩

/-- C6: for a non-nil options value that converts to query key/value
pairs, addOptions renders the parsed URL with the merged query map, in
which every key produced from the options carries exactly the options
value for that key (overwriting collisions) and every key present only
in the original URL keeps its original values. -/
theorem addOptions_merges_overwriting {Opt : Type}
    (parse : String → Option (String × Values))
    (queryValues : Opt → Option Values)
    (render : String → Values → String) (s : String) (o : Opt)
    (origURL : String) (origValues newValues : Values)
    (hp : parse s = some (origURL, origValues))
    (hq : queryValues o = some newValues)
    (hnd : newValues.keys.Nodup) :
    addOptions parse queryValues render s (some o)
      = (render origURL (mergeValues origValues newValues), false)
    ∧ (∀ k, k ∈ newValues.keys →
        (mergeValues origValues newValues).get k = newValues.get k)
    ∧ (∀ k, k ∉ newValues.keys →
        (mergeValues origValues newValues).get k = origValues.get k) := by
  refine ⟨?_, ?_, ?_⟩
  · simp [addOptions, hp, hq]
  · intro k hk; exact mergeValues_get_mem newValues origValues k hnd hk
  · intro k hk; exact mergeValues_get_not_mem newValues origValues k hk

/-- Witness for C6 at a concrete URL, options value and collaborator
behaviour: the width key is overwritten, height is added, grid is kept. -/
theorem addOptions_merges_overwriting_witness :
    addOptions parseW qvW renderW urlW (some ())
      = ("https://api.cloudcraft.co/blueprint/xyz/png?3", false) := by
  have h := (addOptions_merges_overwriting parseW qvW renderW urlW ()
    "https://api.cloudcraft.co/blueprint/xyz/png"
    [("grid", ["false"]), ("width", ["100"])]
    [("width", ["200"]), ("height", ["300"])] rfl rfl (by decide)).1
  rw [h]
  rfl

/-- C3 (amended): CheckResponse returns no error exactly when the status
code is in the range 200..299; otherwise it returns an ErrorResult such
that, for a non-empty body, a successful unmarshal populates message and
code from the body while a failed unmarshal leaves the raw body text as
the message with code holding whatever the unmarshal decoded into it
before failing (the zero value when nothing was decoded); for an empty
body both stay unset; and the string form is method, space, url,
colon-space, status, space, message. -/
theorem checkResponse_spec (p : String → UnmarshalOutcome) (r : HttpResp)
    (hread : r.bodyReadErr = false) :
    (CheckResponse p r = none ↔ (200 ≤ r.statusCode ∧ r.statusCode ≤ 299))
    ∧ (∀ e, CheckResponse p r = some e →
        e.errorString
          = r.method ++ " " ++ r.url ++ ": " ++ toString r.statusCode
              ++ " " ++ e.message
        ∧ (r.bodyData ≠ "" →
            ((p r.bodyData).failed = false →
               e.message = (p r.bodyData).message
               ∧ e.code = (p r.bodyData).code)
            ∧ ((p r.bodyData).failed = true →
               e.message = r.bodyData ∧ e.code = (p r.bodyData).code))
        ∧ (r.bodyData = "" → e.message = "" ∧ e.code = 0)) := by
  constructor
  · by_cases hst : 200 ≤ r.statusCode ∧ r.statusCode ≤ 299
    · simp [CheckResponse, hst]
    · simp [CheckResponse, hst]
  · intro e he
    obtain ⟨hm, hu, hs⟩ := checkResponse_statusCode p r e he
    refine ⟨?_, ?_, ?_⟩
    · show e.method ++ " " ++ e.url ++ ": " ++ toString e.statusCode
          ++ " " ++ e.message
        = r.method ++ " " ++ r.url ++ ": " ++ toString r.statusCode
          ++ " " ++ e.message
      rw [hm, hu, hs]
    · intro hb
      simp only [CheckResponse] at he
      split at he
      · cases he
      · rw [if_pos ⟨hread, (string_length_pos_iff r.bodyData).mpr hb⟩] at he
        constructor
        · intro hf
          rw [if_neg (by simp [hf])] at he
          cases he
          exact ⟨rfl, rfl⟩
        · intro hf
          rw [if_pos hf] at he
          cases he
          exact ⟨rfl, rfl⟩
    · intro hb
      simp only [CheckResponse] at he
      split at he
      · cases he
      · rw [if_neg (by simp [hb])] at he
        cases he
        exact ⟨rfl, rfl⟩

/-- C3 counterexample: a 500 response whose body has an integer error
field and integer code field fails to unmarshal, so the message becomes
the raw body text — yet the code does not stay at its zero value: the
unmarshal decoded 500 into it before returning the error. -/
theorem checkResponse_failed_unmarshal_nonzero_code :
    CheckResponse parse500 resp500 = some e500
    ∧ e500.message = body500
    ∧ e500.code = 500
    ∧ ¬ e500.code = 0 :=
  ⟨rfl, rfl, rfl, by decide⟩

/-- Witness for C3 at the spec example: status 404 with the JSON body
mapping to message "not found" and code 404, on GET
https://api.cloudcraft.co/blueprint/xyz. -/
theorem checkResponse_spec_witness :
    CheckResponse parse404 resp404 = some e404
    ∧ ErrorResponse.errorString e404
        = "GET https://api.cloudcraft.co/blueprint/xyz: 404 not found" := by
  have h := (checkResponse_spec parse404 resp404 rfl).2 e404 (by rfl)
  refine ⟨by rfl, ?_⟩
  rw [h.1]
  rfl

theorem mem_headerSet (hs : Headers) (k v : String) (q : String × String) :
    q ∈ headerSet hs k v ↔ q = (k, v) ∨ (q ∈ hs ∧ q.1 ≠ k) := by
  simp [headerSet, List.mem_filter]

theorem foldl_headerAdd (l : List (String × String)) :
    ∀ init : Headers,
      l.foldl (fun hs p => headerAdd hs p.1 p.2) init = init ++ l := by
  induction l with
  | nil => intro init; simp
  | cons p rest ih =>
    intro init
    rw [List.foldl_cons, ih (headerAdd init p.1 p.2)]
    simp [headerAdd]

theorem contentType_not_mem_final (ua : String) (hs : Headers)
    (h : ∀ v, ("Content-Type", v) ∉ hs) (v : String) :
    ("Content-Type", v) ∉
      headerSet (headerSet hs "Accept" mediaType) "User-Agent" ua := by
  intro hv
  rcases (mem_headerSet _ _ _ _).mp hv with h1 | ⟨h2, _⟩
  · exact absurd (congrArg Prod.fst h1)
      (show ¬("Content-Type" = "User-Agent") by decide)
  · rcases (mem_headerSet _ _ _ _).mp h2 with h3 | ⟨h4, _⟩
    · exact absurd (congrArg Prod.fst h3)
        (show ¬("Content-Type" = "Accept") by decide)
    · exact h v h4

theorem contentType_mem_final (ua : String) (hs : Headers)
    (h : ("Content-Type", mediaType) ∈ hs) :
    ("Content-Type", mediaType) ∈
      headerSet (headerSet hs "Accept" mediaType) "User-Agent" ua := by
  apply (mem_headerSet _ _ _ _).mpr
  right
  refine ⟨?_, by decide⟩
  apply (mem_headerSet _ _ _ _).mpr
  right
  exact ⟨h, by decide⟩

/-- C4: a request built by NewRequest for GET, HEAD or OPTIONS carries no
body and (the client's static headers not setting one) no Content-Type
header even when a non-nil body value is supplied; for every other
method a non-nil body value is JSON-encoded into the request body with
Content-Type set to application/json, and a nil body value yields an
empty-body request (Content-Type is still set for those methods). -/
theorem newRequest_spec {Body : Type}
    (resolve : String → String → Option String)
    (encode : Body → Option String) (c : ClientModel) (urlStr : String)
    (hct : ∀ v, ("Content-Type", v) ∉ c.headers) :
    (∀ (method : String) (body : Option Body) (req : HttpRequest),
        (method = "GET" ∨ method = "HEAD" ∨ method = "OPTIONS") →
        NewRequest resolve encode c method urlStr body = some req →
        req.body = none ∧ ∀ v, ("Content-Type", v) ∉ req.headers)
    ∧ (∀ (method : String) (b : Body) (enc : String) (req : HttpRequest),
        ¬(method = "GET" ∨ method = "HEAD" ∨ method = "OPTIONS") →
        encode b = some enc →
        NewRequest resolve encode c method urlStr (some b) = some req →
        req.body = some enc ∧ ("Content-Type", mediaType) ∈ req.headers)
    ∧ (∀ (method : String) (req : HttpRequest),
        ¬(method = "GET" ∨ method = "HEAD" ∨ method = "OPTIONS") →
        NewRequest resolve encode c method urlStr (none : Option Body)
          = some req →
        req.body = some "" ∧ ("Content-Type", mediaType) ∈ req.headers) := by
  refine ⟨?_, ?_, ?_⟩
  · intro method body req hm hreq
    cases hres : resolve c.baseURL urlStr with
    | none => simp [NewRequest, hres] at hreq
    | some u =>
      simp only [NewRequest, hres, if_pos hm] at hreq
      cases hreq
      refine ⟨rfl, fun v => ?_⟩
      show ("Content-Type", v) ∉
        headerSet (headerSet
          (c.headers.foldl (fun hs p => headerAdd hs p.1 p.2) [])
          "Accept" mediaType) "User-Agent" c.userAgent
      rw [foldl_headerAdd c.headers [], List.nil_append]
      exact contentType_not_mem_final c.userAgent c.headers hct v
  · intro method b enc req hm henc hreq
    cases hres : resolve c.baseURL urlStr with
    | none => simp [NewRequest, hres] at hreq
    | some u =>
      simp only [NewRequest, hres, if_neg hm, henc] at hreq
      cases hreq
      refine ⟨rfl, ?_⟩
      show ("Content-Type", mediaType) ∈
        headerSet (headerSet
          (c.headers.foldl (fun hs p => headerAdd hs p.1 p.2)
            (headerSet [] "Content-Type" mediaType))
          "Accept" mediaType) "User-Agent" c.userAgent
      rw [foldl_headerAdd c.headers (headerSet [] "Content-Type" mediaType)]
      apply contentType_mem_final
      exact List.mem_append_left _ (by simp [headerSet])
  · intro method req hm hreq
    cases hres : resolve c.baseURL urlStr with
    | none => simp [NewRequest, hres] at hreq
    | some u =>
      simp only [NewRequest, hres, if_neg hm] at hreq
      cases hreq
      refine ⟨rfl, ?_⟩
      show ("Content-Type", mediaType) ∈
        headerSet (headerSet
          (c.headers.foldl (fun hs p => headerAdd hs p.1 p.2)
            (headerSet [] "Content-Type" mediaType))
          "Accept" mediaType) "User-Agent" c.userAgent
      rw [foldl_headerAdd c.headers (headerSet [] "Content-Type" mediaType)]
      apply contentType_mem_final
      exact List.mem_append_left _ (by simp [headerSet])

/-- Witness for C4 at a concrete client with no static headers: a GET
request ignores the supplied body value and carries no Content-Type,
while a POST request carries the encoded body and Content-Type
application/json. -/
theorem newRequest_spec_witness :
    reqGETc.body = none
    ∧ ("Content-Type", mediaType) ∉ reqGETc.headers
    ∧ reqPOSTc.body = some "\x7b\x7d"
    ∧ ("Content-Type", mediaType) ∈ reqPOSTc.headers := by
  have h := newRequest_spec resolve0 encode0 c0 "blueprint"
    (fun v hv => by cases hv)
  have h1 := h.1 "GET" (some ()) reqGETc (Or.inl rfl) (by rfl)
  have h2 := h.2.1 "POST" () "\x7b\x7d" reqPOSTc (by decide) rfl (by rfl)
  exact ⟨h1.1, h1.2 mediaType, h2.1, h2.2⟩

theorem retryLoop_exits (t : HttpRequest → Nat → Except TransportErr HttpResp)
    (req : HttpRequest) (r : Nat → HttpResp) :
    ∀ (n fuel i : Nat), n < fuel →
      (∀ j, j ≤ n → t req (i + j) = .ok (r (i + j))) →
      (∀ j, j < n → (r (i + j)).statusCode = 202) →
      (r (i + n)).statusCode ≠ 202 →
      retryLoop t req fuel i = .exited (r (i + n)) := by
  intro n
  induction n with
  | zero =>
    intro fuel i hf hok _ hn
    match fuel, hf with
    | fuel + 1, _ =>
      have h0 := hok 0 (Nat.le_refl 0)
      simp only [Nat.add_zero] at h0 hn ⊢
      simp [retryLoop, h0, hn]
  | succ m ih =>
    intro fuel i hf hok h202 hn
    match fuel, hf with
    | fuel + 1, hf =>
      have h0 := hok 0 (Nat.zero_le _)
      rw [Nat.add_zero] at h0
      have hs0 : (r i).statusCode = 202 := by
        have h1 := h202 0 (Nat.succ_pos m)
        rwa [Nat.add_zero] at h1
      have hrec := ih fuel (i + 1) (Nat.lt_of_succ_lt_succ hf)
        (fun j hj => by
          have h1 := hok (j + 1) (Nat.succ_le_succ hj)
          rwa [show i + (j + 1) = i + 1 + j by omega] at h1)
        (fun j hj => by
          have h1 := h202 (j + 1) (Nat.succ_lt_succ hj)
          rwa [show i + (j + 1) = i + 1 + j by omega] at h1)
        (by
          rw [show i + 1 + m = i + (m + 1) by omega]
          exact hn)
      rw [show i + (m + 1) = i + 1 + m by omega]
      simpa [retryLoop, h0, hs0] using hrec

theorem processResponse_error_api (jsonParse : String → UnmarshalOutcome)
    (resp : HttpResp) (v : Dest) (e : ErrorResponse)
    (he : (processResponse jsonParse resp v).error = some (.api e)) :
    CheckResponse jsonParse resp = some e := by
  unfold processResponse at he
  cases hc : CheckResponse jsonParse resp with
  | some e0 =>
    simp only [hc] at he
    simp at he
    rw [he]
  | none =>
    simp only [hc] at he
    exfalso
    split at he
    · simp at he
    · split at he <;> simp at he
    · split at he <;> simp at he

theorem processResponse_response (jsonParse : String → UnmarshalOutcome)
    (resp : HttpResp) (v : Dest) (w : HttpResp)
    (hw : (processResponse jsonParse resp v).response = some w) :
    w = resp := by
  unfold processResponse at hw
  cases hc : CheckResponse jsonParse resp with
  | some e0 =>
    simp only [hc] at hw
    simp at hw
    exact hw.symm
  | none =>
    simp only [hc] at hw
    split at hw
    · simp at hw
      exact hw.symm
    · split at hw
      · simp at hw
      · simp at hw
        exact hw.symm
    · split at hw
      · simp at hw
      · simp at hw
        exact hw.symm

/-- C1: for every sequence of transport responses to one call, Do resends
the same request while the received status is 202, never surfaces a 202
response as an error, and the response it processes and returns (for
status classification, decoding, and the wrapper handed to the caller)
is that of the first attempt whose status is not 202. -/
theorem do_retries_until_non202
    (jsonParse : String → UnmarshalOutcome)
    (t : HttpRequest → Nat → Except TransportErr HttpResp)
    (req : HttpRequest) (v : Dest) (r : Nat → HttpResp) (n fuel : Nat)
    (hfuel : n < fuel)
    (hok : ∀ i, i ≤ n → t req i = .ok (r i))
    (h202 : ∀ i, i < n → (r i).statusCode = 202)
    (hn : (r n).statusCode ≠ 202) :
    Do jsonParse t req v fuel = .ret (processResponse jsonParse (r n) v)
    ∧ (∀ e, (processResponse jsonParse (r n) v).error = some (.api e) →
        e.statusCode ≠ 202)
    ∧ (∀ w, (processResponse jsonParse (r n) v).response = some w →
        w = r n) := by
  have hloop : retryLoop t req fuel 0 = .exited (r n) := by
    have h := retryLoop_exits t req r n fuel 0 hfuel
      (fun j hj => by simpa using hok j hj)
      (fun j hj => by simpa using h202 j hj)
      (by simpa using hn)
    simpa using h
  refine ⟨?_, ?_, ?_⟩
  · simp [Do, hloop]
  · intro e he
    have hc := processResponse_error_api jsonParse (r n) v e he
    have hs := (checkResponse_statusCode jsonParse (r n) e hc).2.2
    rw [hs]
    exact hn
  · intro w hw
    exact processResponse_response jsonParse (r n) v w hw

/-- Witness for C1: attempts 0 and 1 answer 202, attempt 2 answers 200;
Do returns the processing of the 200 response. -/
theorem do_retries_until_non202_witness :
    Do jsonPW tW reqW Dest.nil 5
      = DoFinal.ret { response := some resp200, error := none,
                      written := none, decoded := none } := by
  have h := (do_retries_until_non202 jsonPW tW reqW Dest.nil rW 2 5
    (by omega)
    (fun i _ => rfl)
    (fun i hi => by interval_cases i <;> decide)
    (by decide)).1
  rw [h]
  rfl

/-- C2 (code bug): when the transport exchange fails on the first attempt
(the HTTP client returns an error and a nil response), Do evaluates
resp.StatusCode in the retry-loop condition on the nil response and
panics with a nil-pointer dereference instead of returning the transport
error: the `return nil, err` statement sits after the loop and is never
reached. -/
theorem do_panics_on_transport_error :
    Do jsonPW tFail reqW Dest.nil 5 = DoFinal.nilPanic
    ∧ tFail reqW 0 = .error TransportErr.dnsFailure :=
  ⟨rfl, rfl⟩

/-- C5: for a successful (2xx, non-202) final response with a readable
body, a writer destination receives the whole body verbatim with no
decode attempted; a non-nil decode destination gets the body
JSON-decoded, a decode failure surfacing as the call error; a nil
destination discards the body with no decode attempt, and the call
succeeds. -/
theorem do_success_destination
    (jsonParse : String → UnmarshalOutcome)
    (t : HttpRequest → Nat → Except TransportErr HttpResp)
    (req : HttpRequest) (resp : HttpResp) (fuel : Nat)
    (hfuel : 0 < fuel)
    (ht : t req 0 = .ok resp)
    (hok : 200 ≤ resp.statusCode ∧ resp.statusCode ≤ 299)
    (h202 : resp.statusCode ≠ 202)
    (hread : resp.bodyReadErr = false) :
    Do jsonParse t req Dest.writer fuel
      = .ret { response := some resp, error := none,
               written := some resp.bodyData, decoded := none }
    ∧ (∀ d, d resp.bodyData = true →
        Do jsonParse t req (Dest.typed d) fuel
          = .ret { response := some resp, error := none,
                   written := none, decoded := some resp.bodyData })
    ∧ (∀ d, d resp.bodyData = false →
        Do jsonParse t req (Dest.typed d) fuel
          = .ret { response := none, error := some DoError.decodeFailed,
                   written := none, decoded := some resp.bodyData })
    ∧ Do jsonParse t req Dest.nil fuel
      = .ret { response := some resp, error := none,
               written := none, decoded := none } := by
  have hloop : retryLoop t req fuel 0 = .exited resp := by
    match fuel, hfuel with
    | fuel + 1, _ => simp [retryLoop, ht, h202]
  have hcheck : CheckResponse jsonParse resp = none := by
    simp [CheckResponse, hok]
  refine ⟨?_, ?_, ?_, ?_⟩
  · simp [Do, hloop, processResponse, hcheck, hread]
  · intro d hd
    simp [Do, hloop, processResponse, hcheck, hread, hd]
  · intro d hd
    simp [Do, hloop, processResponse, hcheck, hread, hd]
  · simp [Do, hloop, processResponse, hcheck]

/-- Witness for C5: the constant-200 transport with a writer destination
copies the body bytes verbatim into the sink. -/
theorem do_success_destination_witness :
    Do jsonPW tOk200 reqW Dest.writer 1
      = DoFinal.ret { response := some resp200, error := none,
                      written := some "ok", decoded := none } := by
  have h := (do_success_destination jsonPW tOk200 reqW resp200 1
    (by omega) rfl (by decide) (by decide) rfl).1
  exact h

/-- C10 (code bug): the deferred body drain and close never affect the
values Do returns.  With a success response whose Body.Close fails and no
other pending error, Do still returns no error: the close failure is only
assigned to the dead local variable (modelled by cleanupLocalErr), because
Do has unnamed result parameters.  When another error is pending the
cleanup keeps it, so drain/close indeed never fail the call. -/
theorem do_discards_close_error :
    Do jsonPW tOk200close reqW Dest.nil 3
      = DoFinal.ret { response := some resp200close, error := none,
                      written := none, decoded := none }
    ∧ resp200close.closeErr = true
    ∧ drainsBody resp200close = true
    ∧ cleanupLocalErr resp200close none = some DoError.closeFailed
    ∧ (∀ e : DoError, cleanupLocalErr resp200close (some e) = some e) :=
  ⟨rfl, rfl, rfl, rfl, fun _ => rfl⟩

/-- C9 (code bug): NewFromToken concatenates the word Bearer directly
with the token, with no separating space, and that exact header value is
what every built request carries for Authorization. -/
theorem newFromToken_bearer_missing_space :
    (NewFromToken "abc123").headers = [("Authorization", "Bearerabc123")]
    ∧ Option.map (fun req => headerValues req.headers "Authorization")
        tokenReq = some ["Bearerabc123"]
    ∧ "Bearerabc123" ≠ "Bearer abc123" := by
  exact ⟨rfl, by rfl, by decide⟩

/-- C8 counterexample: Export with a non-empty identifier and a nil
request body does not return an ArgumentError; it dereferences the nil
body (a runtime panic). -/
theorem blueprintsExport_nil_body_no_argerror :
    BlueprintsExport "xyz" (none : Option BlueprintExportRequest)
      = ServiceOutcome.nilDeref
    ∧ (BlueprintsExport "xyz"
        (none : Option BlueprintExportRequest)).isArgError = false :=
  ⟨rfl, rfl⟩

/-- C8 (amended): get/update/delete/export/snapshot with an empty
identifier, and create/update with a nil request body, return an
ArgumentError immediately, before any request is built; however Export
(blueprints) and Snapshot (AWS accounts) do not validate their request
body: with a non-empty identifier and a nil body they dereference the nil
body instead of returning an ArgumentError. -/
theorem services_validate_arguments :
    (BlueprintsGet ""
       = ServiceOutcome.argError "blueprintId" "cannot be empty")
    ∧ (BlueprintsDelete ""
       = ServiceOutcome.argError "blueprintId" "cannot be empty")
    ∧ (∀ b : Option Unit, BlueprintsUpdate "" b
       = ServiceOutcome.argError "blueprintId" "cannot be empty")
    ∧ (BlueprintsCreate (none : Option Unit)
       = ServiceOutcome.argError "createRequest" "cannot be nil")
    ∧ (∀ id : String, id ≠ "" → BlueprintsUpdate id (none : Option Unit)
       = ServiceOutcome.argError "updateRequest" "cannot be nil")
    ∧ (∀ er : Option BlueprintExportRequest, BlueprintsExport "" er
       = ServiceOutcome.argError "blueprintId" "cannot be empty")
    ∧ (AwsAccountsGet ""
       = ServiceOutcome.argError "awsAccountID" "cannot be empty")
    ∧ (AwsAccountsDelete ""
       = ServiceOutcome.argError "awsAccountID" "cannot be empty")
    ∧ (∀ b : Option Unit, AwsAccountsUpdate "" b
       = ServiceOutcome.argError "awsAccountID" "cannot be empty")
    ∧ (AwsAccountsCreate (none : Option Unit)
       = ServiceOutcome.argError "createRequest" "cannot be nil")
    ∧ (∀ id : String, id ≠ "" → AwsAccountsUpdate id (none : Option Unit)
       = ServiceOutcome.argError "updateRequest" "cannot be nil")
    ∧ (∀ sr : Option AwsAccountSnapshotRequest, AwsAccountsSnapshot "" sr
       = ServiceOutcome.argError "awsAccountID" "cannot be empty")
    ∧ (∀ id : String, id ≠ "" →
        BlueprintsExport id (none : Option BlueprintExportRequest)
          = ServiceOutcome.nilDeref
        ∧ AwsAccountsSnapshot id (none : Option AwsAccountSnapshotRequest)
          = ServiceOutcome.nilDeref) := by
  refine ⟨rfl, rfl, fun b => rfl, rfl, ?_, fun er => rfl, rfl, rfl,
    fun b => rfl, rfl, ?_, fun sr => rfl, ?_⟩
  · intro id hid; simp [BlueprintsUpdate, hid]
  · intro id hid; simp [AwsAccountsUpdate, hid]
  · intro id hid
    constructor
    · simp [BlueprintsExport, hid]
    · simp [AwsAccountsSnapshot, hid]

/-- Witness for C8: a non-empty identifier with a nil update body is
rejected with an ArgumentError, while Export with a nil body hits the nil
dereference instead. -/
theorem services_validate_arguments_witness :
    BlueprintsUpdate "xyz" (none : Option Unit)
      = ServiceOutcome.argError "updateRequest" "cannot be nil"
    ∧ BlueprintsExport "xyz" (none : Option BlueprintExportRequest)
      = ServiceOutcome.nilDeref := by
  obtain ⟨_, _, _, _, h5, _, _, _, _, _, _, _, h13⟩ :=
    services_validate_arguments
  exact ⟨h5 "xyz" (by decide), (h13 "xyz" (by decide)).1⟩

end Cloudcraft






